import Mathlib

/-!
Verification of the pyci continuous-integration server (rosenbrockc/ci)
against its natural-language specification.

The development shallowly embeds the orchestration core of the repository:
the archive ledger and its load/save operations (`pyci/utility.py`,
`pyci/server.py`), pull-request discovery and processing
(`Server.find_pulls`, `Server.process_pulls`, `PullRequest`), the test
result analysis (`PullRequest.test`, `PullRequest.finalize`) and the cron
scheduler (`_find_next` in `pyci/scripts/ci.py`).

Modelling conventions:
* Python dicts that are used as string-keyed maps (the JSON archive, the
  cron status records) are embedded as association lists with first-match
  lookup; the keys written by the code are reproduced literally.
* Timestamps are drawn from a logical clock (a natural number that
  advances along the execution trace); datetime arithmetic is embedded
  with the exact component semantics of `timedelta` used by the source
  (`.seconds` is the seconds component, reduced modulo one day).
* Python floats are embedded as exact rationals; the comparisons the code
  performs on them (`abs(p - 1) < 1e-12`, `p < 1`) are robust at the
  values reached here, so no rounding model is needed.
* Exceptions are embedded with `Except`; an uncaught Python exception is
  an `.error` value that propagates.
-/

/-- Python exception kinds that the embedded code can raise. -/
inductive PyError where
  | valueError
  | attributeError
  | nameError
  | ioError
deriving DecidableEq

/-- One entry of the archive ledger: the persisted processing record of a
single pull request (`server.py` line 112, §6 archive file format). -/
structure PullRecord where
  number : Int
  stage : String
  start : Option Nat
  finished : Option Nat
  completed : Bool
  success : Bool
deriving DecidableEq

/-- Per-repository slice of the archive: pull-request-number-as-string
mapped to its record. -/
abbrev RepoArchive := List (String × PullRecord)

/-- The archive ledger: repository key mapped to its slice. -/
abbrev Ledger := List (String × RepoArchive)

/-- First-match lookup in an association list (Python dict read `d[k]`,
returning `none` where Python would report the key as absent). -/
def lookupKV {α : Type} (k : String) : List (String × α) → Option α
  | [] => none
  | (k0, v) :: rest => if k0 = k then some v else lookupKV k rest

/-- Association-list update (Python dict write `d[k] = v`). -/
def setKV {α : Type} (k : String) (v : α) : List (String × α) → List (String × α)
  | [] => [(k, v)]
  | (k0, v0) :: rest => if k0 = k then (k0, v) :: rest else (k0, v0) :: setKV k v rest

/-- An open pull request as returned by the open-pull-request listing
(`repo.repo.get_pulls("open")`, or the test fakes). -/
structure Pull where
  number : Int
deriving DecidableEq

/-- `PullRequest.snumber` (`server.py` lines 332-338): the pull-request
number stringified, because the JSON ledger keys are strings on reload. -/
def Pull.snumber (p : Pull) : String := toString p.number

/-- A monitored repository: its lowercased key and the pull requests its
open-pull-request listing currently returns. -/
structure Repo where
  key : String
  openPulls : List Pull
deriving DecidableEq

/-- The body of the `newpull` computation in `Server.find_pulls`
(`server.py` lines 185-191): a pull request is new unless the archive
slice holds a record for its stringified number with `completed == True`. -/
def newpull (archRepo : RepoArchive) (p : Pull) : Bool :=
  match lookupKV p.snumber archRepo with
  | some rec => !rec.completed
  | none => true

/-- The `self.runnable` gate in `Server.find_pulls` (`server.py` lines
177-180): `none` means the constraint is not applied. -/
def runnableAllows (runnable : Option (List String)) (k : String) : Bool :=
  match runnable with
  | none => true
  | some l => l.contains k

/-- `Server.find_pulls` (`server.py` lines 163-199): for each monitored
repository, raise `ValueError` if the repository key is absent from the
archive, skip repositories excluded by `runnable`, and otherwise keep the
open pull requests that pass the `newpull` filter. -/
def find_pulls : List Repo → Ledger → Option (List String) →
    Except PyError (List (String × List Pull))
  | [], _, _ => .ok []
  | r :: rs, archive, runnable =>
    match lookupKV r.key archive with
    | none => .error .valueError
    | some archRepo =>
      if runnableAllows runnable r.key then
        match find_pulls rs archive runnable with
        | .ok rest => .ok ((r.key, r.openPulls.filter (newpull archRepo)) :: rest)
        | .error e => .error e
      else
        find_pulls rs archive runnable

theorem newpull_iff (archRepo : RepoArchive) (p : Pull) :
    newpull archRepo p = true ↔
      ∀ rec, lookupKV p.snumber archRepo = some rec → rec.completed = false := by
  unfold newpull
  cases h : lookupKV p.snumber archRepo with
  | none => simp
  | some rec => simp [h]

/-- Claim C1: in a discovery pass over the open-pull-request listing, a
pull request whose archived record has `completed = true` is excluded from
the processing set, and every other pull request (no record, or a record
with `completed = false`) is included. Stated for the default
`runnable = none` state of the server. -/
theorem find_pulls_filters_completed (repos : List Repo) (archive : Ledger)
    (res : List (String × List Pull)) (h : find_pulls repos archive none = .ok res)
    (r : Repo) (hr : r ∈ repos) :
    ∃ archRepo procd, lookupKV r.key archive = some archRepo ∧ (r.key, procd) ∈ res ∧
      ∀ p ∈ r.openPulls,
        (p ∈ procd ↔ ∀ rec, lookupKV p.snumber archRepo = some rec → rec.completed = false) := by
  induction repos generalizing res with
  | nil => cases hr
  | cons r0 rs ih =>
    rw [find_pulls] at h
    cases hl : lookupKV r0.key archive with
    | none => rw [hl] at h; cases h
    | some archRepo0 =>
      rw [hl] at h
      simp only [runnableAllows, if_true] at h
      cases hrec : find_pulls rs archive none with
      | error e => rw [hrec] at h; cases h
      | ok rest =>
        rw [hrec] at h
        injection h with h
        subst h
        rcases List.mem_cons.mp hr with hr0 | hrs
        · subst hr0
          refine ⟨archRepo0, _, hl, List.mem_cons_self _ _, ?_⟩
          intro p hp
          rw [List.mem_filter]
          constructor
          · intro hmem
            exact (newpull_iff archRepo0 p).mp hmem.2
          · intro hnew
            exact ⟨hp, (newpull_iff archRepo0 p).mpr hnew⟩
        · obtain ⟨archRepo, procd, h1, h2, h3⟩ := ih rest hrec hrs
          exact ⟨archRepo, procd, h1, List.mem_cons_of_mem _ h2, h3⟩

def wRecRetry : PullRecord :=
  { number := 1, stage := "/stage/a", start := some 0, finished := none,
    completed := false, success := false }

def wRecOld : PullRecord :=
  { number := 2, stage := "/stage/a", start := some 0, finished := some 1,
    completed := true, success := true }

def wRepo : Repo := { key := "arbitrary", openPulls := [⟨1⟩, ⟨2⟩, ⟨3⟩] }

def wArchive : Ledger := [("arbitrary", [("1", wRecRetry), ("2", wRecOld)])]

def wRes : List (String × List Pull) := [("arbitrary", [⟨1⟩, ⟨3⟩])]

theorem find_pulls_filters_completed_witness :
    find_pulls [wRepo] wArchive none = .ok wRes ∧ wRepo ∈ [wRepo] ∧
    ∃ archRepo procd, lookupKV wRepo.key wArchive = some archRepo ∧ (wRepo.key, procd) ∈ wRes ∧
      ∀ p ∈ wRepo.openPulls,
        (p ∈ procd ↔ ∀ rec, lookupKV p.snumber archRepo = some rec → rec.completed = false) :=
  ⟨rfl, List.mem_singleton.mpr rfl,
    find_pulls_filters_completed [wRepo] wArchive wRes rfl wRepo
      (List.mem_singleton.mpr rfl)⟩

/-- Claim C10: discovery presupposes installation — if a monitored
repository key is absent from the archive ledger, `find_pulls` raises a
`ValueError` instead of returning a result. -/
theorem find_pulls_missing_repo_raises (repos : List Repo) (archive : Ledger)
    (runnable : Option (List String)) (r : Repo) (hr : r ∈ repos)
    (hmiss : lookupKV r.key archive = none) :
    find_pulls repos archive runnable = .error .valueError := by
  induction repos with
  | nil => cases hr
  | cons r0 rs ih =>
    rw [find_pulls]
    cases hl : lookupKV r0.key archive with
    | none => rfl
    | some archRepo0 =>
      rcases List.mem_cons.mp hr with hr0 | hrs
      · subst hr0; rw [hl] at hmiss; cases hmiss
      · rw [ih hrs]
        cases runnableAllows runnable r0.key <;> simp

def wMissingRepo : Repo := { key := "uninstalled", openPulls := [] }

theorem find_pulls_missing_repo_raises_witness :
    wMissingRepo ∈ [wMissingRepo] ∧ lookupKV wMissingRepo.key ([] : Ledger) = none ∧
    find_pulls [wMissingRepo] [] none = .error .valueError :=
  ⟨List.mem_singleton.mpr rfl, rfl,
    find_pulls_missing_repo_raises [wMissingRepo] [] none wMissingRepo
      (List.mem_singleton.mpr rfl) rfl⟩

/-! ## Archive Store persistence (`Server._save_archive`, `utility.get_json`) -/

/-- File contents are embedded as byte lists; `none` is a missing file. -/
abbrev FileData := Option (List Nat)

/-- `open(self.archpath, "w")` (`server.py` line 213): opening a file in
write mode truncates it immediately, whatever it held before. -/
def openTruncate (_prev : FileData) : FileData := some []

/-- `json.dump(self.archive, f, ...)` (`server.py` line 214): the
serialization is streamed into the open file; an I/O failure after `k`
bytes (modelled by `failAt = some k`) leaves only that prefix written. -/
def writeSer (file : FileData) (ser : List Nat) (failAt : Option Nat) : FileData :=
  match file with
  | none => none
  | some cur =>
    match failAt with
    | none => some (cur ++ ser)
    | some k => some (cur ++ ser.take k)

/-- `Server._save_archive` (`server.py` lines 208-214): truncate-open the
archive path, then stream the serialized ledger into it. -/
def save_archive (prev : FileData) (ser : List Nat) (failAt : Option Nat) : FileData :=
  writeSer (openTruncate prev) ser failAt

/-- Claim C3 counterexample: a write that fails part-way (here after one
byte) leaves neither the full new serialization nor the previous archive
contents — the previous file was truncated at open time. -/
theorem save_archive_not_atomic :
    ¬ (save_archive (some [1, 2, 3]) [4, 5, 6] (some 1) = some [4, 5, 6] ∨
       save_archive (some [1, 2, 3]) [4, 5, 6] (some 1) = some [1, 2, 3]) := by
  decide

/-- Claim C3 (amended): the save either fully succeeds, or leaves the file
holding a (possibly empty) prefix of the new serialization; the previous
ledger contents are destroyed by the truncating open, not preserved. -/
theorem save_archive_writes_prefix (prev : FileData) (ser : List Nat) :
    save_archive prev ser none = some ser ∧
    ∀ failAt : Option Nat, ∃ k, k ≤ ser.length ∧
      save_archive prev ser failAt = some (ser.take k) := by
  constructor
  · simp [save_archive, writeSer, openTruncate]
  · intro failAt
    cases failAt with
    | none =>
      exact ⟨ser.length, Nat.le_refl _, by simp [save_archive, writeSer, openTruncate]⟩
    | some k =>
      by_cases hk : k ≤ ser.length
      · exact ⟨k, hk, by simp [save_archive, writeSer, openTruncate]⟩
      · refine ⟨ser.length, Nat.le_refl _, ?_⟩
        simp only [save_archive, writeSer, openTruncate, List.nil_append]
        rw [List.take_length, List.take_of_length_le (Nat.le_of_lt (Nat.lt_of_not_le hk))]

/-- Outcome of attempting to read the archive file from disk. -/
inductive FileRead where
  | missing
  | ioError
  | contents (s : List Nat)
deriving DecidableEq

/-- `utility.get_json` (`utility.py` lines 47-63): a missing file returns
the default; the `try` block catches `IOError` only, so an `IOError`
during open/read falls back to the default (logged), while corrupt
contents make `json.load` raise `ValueError`, which is *not* caught and
propagates to the caller. The JSON parser is passed in as an oracle. -/
def get_json {α : Type} (read : FileRead) (parse : List Nat → Option α) (default : α) :
    Except PyError α :=
  match read with
  | .missing => .ok default
  | .ioError => .ok default
  | .contents s =>
    match parse s with
    | some v => .ok v
    | none => .error .valueError

/-- Claim C4: loading the archive returns the default empty ledger for a
missing file (and for a caught read `IOError`), but a file whose contents
cannot be deserialized makes `get_json` raise `ValueError` to the caller —
contradicting the claim and the docstring of `get_json`. -/
theorem get_json_corrupt_file_raises :
    get_json (.contents [123]) (fun _ => (none : Option Ledger)) ([] : Ledger) =
      .error .valueError ∧
    get_json .missing (fun _ => (none : Option Ledger)) ([] : Ledger) = .ok [] ∧
    get_json .ioError (fun _ => (none : Option Ledger)) ([] : Ledger) = .ok [] :=
  ⟨rfl, rfl, rfl⟩

/-! ## Test result analysis (`PullRequest.test`, `PullRequest.finalize`) -/

/-- `test["success"] = result["code"] == 0 or result["code"] == 1`
(`server.py` line 482). -/
def test_success (code : Int) : Bool := code == 0 || code == 1

/-- The success flags collected by `PullRequest.test` for the configured
commands, in configuration order (`server.py` lines 479-484). -/
def success_flags (codes : List Int) : List Bool := codes.map test_success

/-- The `stotal` accumulation in `PullRequest.finalize` (`server.py`
lines 492-495): one point per test whose `success` flag is set. -/
def stotal (codes : List Int) : Nat :=
  (success_flags codes).foldl (fun s b => s + (if b then 1 else 0)) 0

/-- `self.percent = stotal/float(len(...))` (`server.py` line 498). -/
def percent (codes : List Int) : ℚ := (stotal codes : ℚ) / (codes.length : ℚ)

/-- The Python builtin `abs` on the embedded rationals. -/
def pyabs (q : ℚ) : ℚ := if q < 0 then -q else q

/-- `abs(pull.percent - 1) < 1e-12` (`server.py` line 132): the `success`
field written into the archive record. -/
def record_success (codes : List Int) : Bool :=
  decide (pyabs (percent codes - 1) < 1 / 1000000000000)

/-- The commit status `PullRequest.finalize` would post. -/
inductive StatusPost where
  | failure
  | pendingSlowdown
  | success
deriving DecidableEq

/-- The status branch of `PullRequest.finalize` (`server.py` lines
500-506). In test mode the branch is skipped (`none` posted). In live
mode the first condition is `if percent < 1:` — the bare name `percent`
is not bound in the scope of `finalize` (the computed value is stored in
`self.percent`), so Python raises `NameError` before any status can be
posted. -/
def finalize_status (testmode : Bool) (_codes : List Int) : Except PyError (Option StatusPost) :=
  if testmode then .ok none else .error .nameError

theorem foldl_succ_count (l : List Bool) (a : Nat) :
    l.foldl (fun s b => s + (if b then 1 else 0)) a = a + (l.filter id).length := by
  induction l generalizing a with
  | nil => simp
  | cons b bs ih =>
    cases b
    · simp [List.foldl_cons, ih]
    · simp [List.foldl_cons, ih]
      omega

theorem stotal_zero_one_negone : stotal [0, 1, -1] = 2 := by decide

theorem stotal_zero_zero_one : stotal [0, 0, 1] = 3 := by decide

theorem percent_zero_one_negone : percent [0, 1, -1] = 2 / 3 := by
  simp only [percent, stotal_zero_one_negone]
  norm_num

theorem percent_zero_zero_one : percent [0, 0, 1] = 1 := by
  simp only [percent, stotal_zero_zero_one]
  norm_num

theorem record_success_zero_one_negone : record_success [0, 1, -1] = false := by
  simp only [record_success, percent_zero_one_negone]
  norm_num [pyabs]

theorem record_success_zero_zero_one : record_success [0, 0, 1] = true := by
  simp only [record_success, percent_zero_zero_one]
  norm_num [pyabs]

theorem stotal_eq_filter_length (codes : List Int) :
    stotal codes = (codes.filter test_success).length := by
  unfold stotal success_flags
  rw [foldl_succ_count]
  simp [List.filter_map, Function.comp]

/-- Claim C8: a test counts as a success exactly when its exit code is 0
or 1, and `percent` is the number of successes over the number of tests;
for exit codes `[0, 1, -1]` the flags are `[true, true, false]`,
`percent = 2/3`, and the archived `success` field is `false`. -/
theorem percent_success_computation :
    (∀ c : Int, test_success c = true ↔ (c = 0 ∨ c = 1)) ∧
    (∀ codes : List Int,
      percent codes = ((codes.filter test_success).length : ℚ) / (codes.length : ℚ)) ∧
    success_flags [0, 1, -1] = [true, true, false] ∧
    percent [0, 1, -1] = 2 / 3 ∧
    record_success [0, 1, -1] = false := by
  refine ⟨?_, ?_, by decide, percent_zero_one_negone, record_success_zero_one_negone⟩
  · intro c
    simp [test_success]
  · intro codes
    unfold percent
    rw [stotal_eq_filter_length]

/-- Claim C7: with exit codes `[0, 0, 1]` every test qualifies as success
(`percent = 1`) and the `success` field of the archived record is set to
`true`; but in live mode the status branch of `finalize` raises
`NameError` on the unbound name `percent` (`server.py` line 501), so the
claimed `pending`/slowdown commit status is never posted. -/
theorem finalize_degraded_status_bug :
    success_flags [0, 0, 1] = [true, true, true] ∧
    percent [0, 0, 1] = 1 ∧
    record_success [0, 0, 1] = true ∧
    finalize_status false [0, 0, 1] = .error .nameError := by
  refine ⟨by decide, percent_zero_zero_one, record_success_zero_zero_one, rfl⟩

/-! ## Scheduler (`_find_next` in `pyci/scripts/ci.py`) -/

/-- A per-repository cron status record as persisted in the script
database: a JSON object holding optional timestamps. The keys actually
written are `"start"` and `"end"` (`ci.py` lines 362-363, 374; also read
back by `_list_repos`, lines 404-405). -/
abbrev CronStatus := List (String × Option Nat)

/-- `start = None if "started" not in status else status["started"]`
(`ci.py` line 286). Note the key consulted here is `"started"`. -/
def statusStarted (st : CronStatus) : Option Nat :=
  match lookupKV "started" st with
  | some v => v
  | none => none

/-- `end = None if "end" not in status else status["end"]` (line 287). -/
def statusEnd (st : CronStatus) : Option Nat :=
  match lookupKV "end" st with
  | some v => v
  | none => none

/-- `running = start is not None and end is not None and start > end`
(line 288). -/
def statusRunning (st : CronStatus) : Bool :=
  match statusStarted st, statusEnd st with
  | some s, some e => e < s
  | _, _ => false

/-- `(datetime.now() - end).seconds/60` (line 294): `timedelta.seconds`
is the seconds component of the delta (total seconds reduced modulo one
day for a non-negative delta) and the Python 2 `/` is floor division.
The model takes `endv ≤ now` (end stamps are recorded in the past). -/
def elapsedMinutes (now endv : Nat) : Nat := ((now - endv) % 86400) / 60

/-- The per-entry eligibility decision of `_find_next` (lines 288-301):
not running and previously finished → compare elapsed minutes against the
configured frequency; no recorded end → eligible immediately. -/
def cronAdd (now freq : Nat) (st : CronStatus) : Bool :=
  if !statusRunning st && (statusEnd st).isSome then
    decide (freq < elapsedMinutes now ((statusEnd st).getD 0))
  else if (statusEnd st).isNone then
    true
  else
    false

/-- The loop over `db["status"].items()` (lines 284-305): the selected
repository, if any, plus the names visited before selection. -/
def findNextLoop (now : Nat) (freqs : String → Nat) :
    List (String × CronStatus) → Option String × List String
  | [] => (none, [])
  | (name, st) :: rest =>
    if cronAdd now (freqs name) st then (some name, [])
    else
      let r := findNextLoop now freqs rest
      (r.1, name :: r.2)

/-- `_find_next` (`ci.py` lines 272-319): scan the recorded statuses; if
none is eligible, fall back to the first installed repository that was
not visited (a newly installed repository that has never run). `db = none`
models a script database without a `"status"` key. -/
def find_next (db : Option (List (String × CronStatus))) (repos : List String)
    (now : Nat) (freqs : String → Nat) : Option String :=
  let scan :=
    match db with
    | none => ((none : Option String), ([] : List String))
    | some entries => findNextLoop now freqs entries
  match scan.1 with
  | some r => some r
  | none => repos.find? (fun k => !scan.2.contains k)

/-- A status record exactly as `_do_cron` writes it for a repository that
is mid-run: `start` was just stamped (line 363), `end` still holds the
value of the previous cycle. -/
def midrunStatus : CronStatus := [("start", some 100000), ("end", some 0)]

/-- Claim C5: the scheduler was meant never to select a repository whose
`start` is later than its `end` (mid-run). But `_find_next` reads the key
`"started"` (line 286) while the writer `_do_cron` only ever writes
`"start"` (line 363), so the mid-run guard is inert: with the record
`{start: 100000, end: 0}` and frequency 5, the `running` flag computes to
`false` and the repository is selected even though its start exceeds its
end. (The other half of the claim — selected only if never run or elapsed
minutes exceed the frequency — does hold for this selection.) -/
theorem find_next_selects_midrun_repo :
    lookupKV "start" midrunStatus = some (some 100000) ∧
    lookupKV "end" midrunStatus = some (some 0) ∧
    lookupKV "started" midrunStatus = none ∧
    statusRunning midrunStatus = false ∧
    find_next (some [("arbitrary", midrunStatus)]) ["arbitrary"] 100000 (fun _ => 5) =
      some "arbitrary" :=
  ⟨rfl, rfl, rfl, rfl, rfl⟩

/-! ## Write-ahead ordering of the processing of one pull request
(`Server.process_pulls` lines 94-154, `PullRequest.test` lines 440-484,
live path). The observable events of the pipeline for one pull request are laid
out as a trace; the logical clock is the position in the trace, and each
`datetime.now()` call reads that clock, so the recorded timestamps of two
events compare exactly as their positions do. -/

/-- Observable events while processing a single pull request with `n`
configured test commands. -/
inductive CiEv where
  | initRepo
  | recordStart
  | saveArchiveEv (completed : Bool)
  | beginStatus
  | emailStart
  | testLaunch (i : Nat)
  | testExit (i : Nat)
  | finalizeEv
  | recordFinished
  | emailResult
deriving DecidableEq

/-- Events up to the start email: staging (`pull.init`), the archive
record created with `completed=False` and `start=now` (line 112), the
ledger save (line 122), the pending commit status (`pull.begin`), and the
start email (line 125). -/
def traceHead : List CiEv :=
  [.initRepo, .recordStart, .saveArchiveEv false, .beginStatus, .emailStart]

/-- Events after the tests: `pull.finalize()`, the record update setting
`completed=True` and `finished=now` (lines 131-146), the ledger save
(line 147), and the result email (line 154). -/
def traceTail : List CiEv :=
  [.finalizeEv, .recordFinished, .saveArchiveEv true, .emailResult]

/-- The live-path trace of `process_pulls` for one pull request: the `n`
test processes are launched in configuration order inside `pull.test`
(line 465) and all joined before it returns (lines 474-475). -/
def pullTrace (n : Nat) : List CiEv :=
  traceHead ++ ((List.range n).map CiEv.testLaunch ++
    ((List.range n).map CiEv.testExit ++ traceTail))

theorem pullTrace_get?_eq (n i : Nat) :
    (pullTrace n).get? i =
      if i < 5 then traceHead.get? i
      else if i < 5 + n then some (.testLaunch (i - 5))
      else if i < 5 + 2 * n then some (.testExit (i - (5 + n)))
      else traceTail.get? (i - (5 + 2 * n)) := by
  have hh : traceHead.length = 5 := rfl
  have hl1 : ((List.range n).map CiEv.testLaunch).length = n := by simp
  have hl2 : ((List.range n).map CiEv.testExit).length = n := by simp
  unfold pullTrace
  by_cases h1 : i < 5
  · rw [List.get?_append (by rw [hh]; exact h1), if_pos h1]
  · rw [List.get?_append_right (by rw [hh]; omega), if_neg h1, hh]
    by_cases h2 : i < 5 + n
    · rw [List.get?_append (by rw [hl1]; omega), List.get?_map,
        List.get?_range (by omega), if_pos h2]
      rfl
    · rw [List.get?_append_right (by rw [hl1]; omega), hl1, if_neg h2]
      by_cases h3 : i < 5 + 2 * n
      · rw [List.get?_append (by rw [hl2]; omega), List.get?_map,
          List.get?_range (by omega), if_pos h3]
        have : i - 5 - n = i - (5 + n) := by omega
        rw [this]
        rfl
      · rw [List.get?_append_right (by rw [hl2]; omega), hl2, if_neg h3]
        have : i - 5 - n - n = i - (5 + 2 * n) := by omega
        rw [this]

theorem traceHead_get?_cases (k : Nat) (e : CiEv) (h : traceHead.get? k = some e) :
    (k = 0 ∧ e = .initRepo) ∨ (k = 1 ∧ e = .recordStart) ∨
    (k = 2 ∧ e = .saveArchiveEv false) ∨ (k = 3 ∧ e = .beginStatus) ∨
    (k = 4 ∧ e = .emailStart) := by
  rcases k with _ | _ | _ | _ | _ | m <;> simp_all [traceHead]

theorem traceTail_get?_cases (k : Nat) (e : CiEv) (h : traceTail.get? k = some e) :
    (k = 0 ∧ e = .finalizeEv) ∨ (k = 1 ∧ e = .recordFinished) ∨
    (k = 2 ∧ e = .saveArchiveEv true) ∨ (k = 3 ∧ e = .emailResult) := by
  rcases k with _ | _ | _ | _ | m <;> simp_all [traceTail]

theorem pullTrace_event_pos (n j : Nat) (e : CiEv) (h : (pullTrace n).get? j = some e) :
    (j < 5 ∧ traceHead.get? j = some e) ∨
    (5 ≤ j ∧ j < 5 + n ∧ e = .testLaunch (j - 5)) ∨
    (5 + n ≤ j ∧ j < 5 + 2 * n ∧ e = .testExit (j - (5 + n))) ∨
    (5 + 2 * n ≤ j ∧ traceTail.get? (j - (5 + 2 * n)) = some e) := by
  rw [pullTrace_get?_eq] at h
  split_ifs at h with h1 h2 h3
  · exact Or.inl ⟨h1, h⟩
  · exact Or.inr (Or.inl ⟨by omega, h2, (Option.some.inj h).symm⟩)
  · exact Or.inr (Or.inr (Or.inl ⟨by omega, h3, (Option.some.inj h).symm⟩))
  · exact Or.inr (Or.inr (Or.inr ⟨by omega, h⟩))

theorem testLaunch_pos (n j i : Nat)
    (h : (pullTrace n).get? j = some (.testLaunch i)) : 5 ≤ j ∧ j < 5 + n := by
  rcases pullTrace_event_pos n j _ h with ⟨hj, hh⟩ | ⟨hj1, hj2, he⟩ | ⟨hj1, hj2, he⟩ | ⟨hj, hh⟩
  · rcases traceHead_get?_cases _ _ hh with ⟨hk, he⟩ | ⟨hk, he⟩ | ⟨hk, he⟩ | ⟨hk, he⟩ | ⟨hk, he⟩ <;>
      exact absurd he (by simp)
  · omega
  · exact absurd he (by simp)
  · rcases traceTail_get?_cases _ _ hh with ⟨hk, he⟩ | ⟨hk, he⟩ | ⟨hk, he⟩ | ⟨hk, he⟩ <;>
      exact absurd he (by simp)

theorem testExit_pos (n j i : Nat)
    (h : (pullTrace n).get? j = some (.testExit i)) : 5 + n ≤ j ∧ j < 5 + 2 * n := by
  rcases pullTrace_event_pos n j _ h with ⟨hj, hh⟩ | ⟨hj1, hj2, he⟩ | ⟨hj1, hj2, he⟩ | ⟨hj, hh⟩
  · rcases traceHead_get?_cases _ _ hh with ⟨hk, he⟩ | ⟨hk, he⟩ | ⟨hk, he⟩ | ⟨hk, he⟩ | ⟨hk, he⟩ <;>
      exact absurd he (by simp)
  · exact absurd he (by simp)
  · omega
  · rcases traceTail_get?_cases _ _ hh with ⟨hk, he⟩ | ⟨hk, he⟩ | ⟨hk, he⟩ | ⟨hk, he⟩ <;>
      exact absurd he (by simp)

theorem saveFalse_pos (n j : Nat)
    (h : (pullTrace n).get? j = some (.saveArchiveEv false)) : j = 2 := by
  rcases pullTrace_event_pos n j _ h with ⟨hj, hh⟩ | ⟨hj1, hj2, he⟩ | ⟨hj1, hj2, he⟩ | ⟨hj, hh⟩
  · rcases traceHead_get?_cases _ _ hh with ⟨hk, he⟩ | ⟨hk, he⟩ | ⟨hk, he⟩ | ⟨hk, he⟩ | ⟨hk, he⟩ <;>
      first
      | omega
      | exact absurd he (by simp)
  · exact absurd he (by simp)
  · exact absurd he (by simp)
  · rcases traceTail_get?_cases _ _ hh with ⟨hk, he⟩ | ⟨hk, he⟩ | ⟨hk, he⟩ | ⟨hk, he⟩ <;>
      exact absurd he (by simp)

theorem saveTrue_pos (n j : Nat)
    (h : (pullTrace n).get? j = some (.saveArchiveEv true)) : j = 2 * n + 7 := by
  rcases pullTrace_event_pos n j _ h with ⟨hj, hh⟩ | ⟨hj1, hj2, he⟩ | ⟨hj1, hj2, he⟩ | ⟨hj, hh⟩
  · rcases traceHead_get?_cases _ _ hh with ⟨hk, he⟩ | ⟨hk, he⟩ | ⟨hk, he⟩ | ⟨hk, he⟩ | ⟨hk, he⟩ <;>
      exact absurd he (by simp)
  · exact absurd he (by simp)
  · exact absurd he (by simp)
  · rcases traceTail_get?_cases _ _ hh with ⟨hk, he⟩ | ⟨hk, he⟩ | ⟨hk, he⟩ | ⟨hk, he⟩ <;>
      first
      | omega
      | exact absurd he (by simp)

theorem recordStart_pos (n j : Nat)
    (h : (pullTrace n).get? j = some .recordStart) : j = 1 := by
  rcases pullTrace_event_pos n j _ h with ⟨hj, hh⟩ | ⟨hj1, hj2, he⟩ | ⟨hj1, hj2, he⟩ | ⟨hj, hh⟩
  · rcases traceHead_get?_cases _ _ hh with ⟨hk, he⟩ | ⟨hk, he⟩ | ⟨hk, he⟩ | ⟨hk, he⟩ | ⟨hk, he⟩ <;>
      first
      | omega
      | exact absurd he (by simp)
  · exact absurd he (by simp)
  · exact absurd he (by simp)
  · rcases traceTail_get?_cases _ _ hh with ⟨hk, he⟩ | ⟨hk, he⟩ | ⟨hk, he⟩ | ⟨hk, he⟩ <;>
      exact absurd he (by simp)

theorem recordFinished_pos (n j : Nat)
    (h : (pullTrace n).get? j = some .recordFinished) : j = 2 * n + 6 := by
  rcases pullTrace_event_pos n j _ h with ⟨hj, hh⟩ | ⟨hj1, hj2, he⟩ | ⟨hj1, hj2, he⟩ | ⟨hj, hh⟩
  · rcases traceHead_get?_cases _ _ hh with ⟨hk, he⟩ | ⟨hk, he⟩ | ⟨hk, he⟩ | ⟨hk, he⟩ | ⟨hk, he⟩ <;>
      exact absurd he (by simp)
  · exact absurd he (by simp)
  · exact absurd he (by simp)
  · rcases traceTail_get?_cases _ _ hh with ⟨hk, he⟩ | ⟨hk, he⟩ | ⟨hk, he⟩ | ⟨hk, he⟩ <;>
      first
      | omega
      | exact absurd he (by simp)

/-- Claim C6: along the live-path trace of one pull request, the ledger
save that records `completed=false` (the unique `saveArchiveEv false`, at
clock 2) precedes every test-process launch; the save that records
`completed=true` (the unique `saveArchiveEv true`, at clock `2n+7`)
follows every test-process exit; and the recorded `start` stamp (the
clock of `recordStart`) is strictly smaller than its `finished` stamp
(the clock of `recordFinished`). -/
theorem tests_bracketed_by_saves (n : Nat) :
    (pullTrace n).get? 2 = some (.saveArchiveEv false) ∧
    (pullTrace n).get? (2 * n + 7) = some (.saveArchiveEv true) ∧
    (pullTrace n).get? 1 = some .recordStart ∧
    (pullTrace n).get? (2 * n + 6) = some .recordFinished ∧
    (∀ j, (pullTrace n).get? j = some (.saveArchiveEv false) → j = 2) ∧
    (∀ j, (pullTrace n).get? j = some (.saveArchiveEv true) → j = 2 * n + 7) ∧
    (∀ j i, (pullTrace n).get? j = some (.testLaunch i) → 2 < j) ∧
    (∀ j i, (pullTrace n).get? j = some (.testExit i) → j < 2 * n + 7) ∧
    (∀ s f, (pullTrace n).get? s = some .recordStart →
      (pullTrace n).get? f = some .recordFinished → s < f) := by
  refine ⟨?_, ?_, ?_, ?_, ?_, ?_, ?_, ?_, ?_⟩
  · rw [pullTrace_get?_eq, if_pos (by omega)]
    rfl
  · rw [pullTrace_get?_eq, if_neg (by omega), if_neg (by omega), if_neg (by omega)]
    have h : 2 * n + 7 - (5 + 2 * n) = 2 := by omega
    rw [h]
    rfl
  · rw [pullTrace_get?_eq, if_pos (by omega)]
    rfl
  · rw [pullTrace_get?_eq, if_neg (by omega), if_neg (by omega), if_neg (by omega)]
    have h : 2 * n + 6 - (5 + 2 * n) = 1 := by omega
    rw [h]
    rfl
  · exact fun j h => saveFalse_pos n j h
  · exact fun j h => saveTrue_pos n j h
  · intro j i h
    have := testLaunch_pos n j i h
    omega
  · intro j i h
    have := testExit_pos n j i h
    omega
  · intro s f hs hf
    have h1 := recordStart_pos n s hs
    have h2 := recordFinished_pos n f hf
    omega

theorem tests_bracketed_by_saves_witness :
    (pullTrace 2).get? 5 = some (.testLaunch 0) ∧ 2 < 5 ∧
    (pullTrace 2).get? 1 = some .recordStart ∧
    (pullTrace 2).get? 10 = some .recordFinished ∧ (1 : Nat) < 10 :=
  ⟨rfl, (tests_bracketed_by_saves 2).2.2.2.2.2.2.1 5 0 rfl, rfl, rfl,
    (tests_bracketed_by_saves 2).2.2.2.2.2.2.2.2 1 10 rfl rfl⟩

/-! ## Failure isolation in `Server.process_pulls` (lines 83-161) -/

/-- Notification events handed to `CronManager.email`. -/
inductive EmailKind where
  | start
  | success
  | failure
  | error
deriving DecidableEq

/-- One pull request as processed by `process_pulls`: its repository key,
number, whether the staging/testing steps of its `try` block raise, and
the test exit codes collected when they do not. -/
structure PullTask where
  repokey : String
  number : Int
  raises : Bool
  codes : List Int
deriving DecidableEq

def PullTask.snumber (t : PullTask) : String := toString t.number

/-- The archive record written at `server.py` line 112 before testing
begins (the `start` stamp is irrelevant to this claim and fixed at 0). -/
def newRecord (t : PullTask) : PullRecord :=
  { number := t.number, stage := "", start := some 0, finished := none,
    completed := false, success := false }

/-- `archive[pull.snumber] = ...` on the slice of `pull.repokey`
(`process_pulls` obtains the slice with `self.archive[pull.repokey]`). -/
def ledgerSet (led : Ledger) (rk sk : String) (rec : PullRecord) : Ledger :=
  setKV rk (setKV sk rec ((lookupKV rk led).getD [])) led

/-- `PullRequest._fields_common` (`server.py` lines 509-530), called for
every event via `fields_general`. In test mode it returns the empty field
set. In live mode it dereferences `self.organization` (line 520) — but
`PullRequest` defines no attribute or property of that name (the settings
object is at `self.repo.organization`, line 521), so the lookup raises
`AttributeError`. -/
def fieldsCommon (testmode : Bool) : Except PyError Unit :=
  if testmode then .ok () else .error .attributeError

/-- The archive ledger paired with the emitted email events. -/
abbrev CiState := Ledger × List (String × EmailKind)

/-- The `except` block of `process_pulls` (lines 155-161): log the trace,
then email an `error` event whose fields are built by `_get_fields` —
which calls `_fields_common` again; an exception raised there escapes the
handler. -/
def handleError (testmode : Bool) (st : CiState) (rk : String) : Except PyError CiState :=
  match fieldsCommon testmode with
  | .ok _ => .ok (st.1, st.2 ++ [(rk, .error)])
  | .error e => .error e

/-- The `try` block of `process_pulls` for one pull request (lines
94-154): write-ahead record and save, begin + start email (fields via
`_fields_common`), run the tests, finalize, mark the record completed,
save, and email the result (fields via `_fields_common` again). Any
exception falls into `handleError`. -/
def processOne (testmode : Bool) (st : CiState) (t : PullTask) : Except PyError CiState :=
  let led1 := ledgerSet st.1 t.repokey t.snumber (newRecord t)
  match fieldsCommon testmode with
  | .error _ => handleError testmode (led1, st.2) t.repokey
  | .ok _ =>
    let ev1 := st.2 ++ [(t.repokey, .start)]
    if t.raises then
      handleError testmode (led1, ev1) t.repokey
    else
      let rec2 :=
        { newRecord t with
          completed := true
          success := record_success t.codes
          finished := some 1 }
      let led2 := ledgerSet led1 t.repokey t.snumber rec2
      match fieldsCommon testmode with
      | .error _ => handleError testmode (led2, ev1) t.repokey
      | .ok _ =>
        .ok (led2, ev1 ++ [(t.repokey, if record_success t.codes then .success else .failure)])

/-- The double loop of `process_pulls` over the discovered pull requests,
flattened to the sequential order in which they are visited; an exception
escaping `processOne` aborts the remaining pull requests. -/
def process_pulls (testmode : Bool) : List PullTask → CiState → Except PyError CiState
  | [], st => .ok st
  | t :: ts, st =>
    match processOne testmode st t with
    | .ok st1 => process_pulls testmode ts st1
    | .error e => .error e

def tFail : PullTask := { repokey := "r", number := 1, raises := true, codes := [] }

def tOk : PullTask := { repokey := "r", number := 2, raises := false, codes := [0] }

def st0 : CiState := ([("r", [])], [])

/-- The record the successful pull request ends with. -/
def tOkDone : PullRecord :=
  { newRecord tOk with completed := true, success := record_success [0], finished := some 1 }

theorem stotal_single_zero : stotal [0] = 1 := by decide

theorem percent_single_zero : percent [0] = 1 := by
  simp only [percent, stotal_single_zero]
  norm_num

theorem record_success_single_zero : record_success [0] = true := by
  simp only [record_success, percent_single_zero]
  norm_num [pyabs]

/-- Claim C2: failure isolation at the pull-request boundary. In live
mode (`testmode = false`) the `except` handler itself raises: building
the error-email fields dereferences the undefined attribute
`self.organization` (`server.py` line 520), so the `AttributeError`
escapes the handler, no error email is emitted, and the remaining pull
requests are never processed — the whole cycle aborts on the first
failure (indeed on the start email of the very first pull request). In
test mode the handler works as the claim describes: the error event is
emitted, the failed record keeps `completed = false`, and the next pull
request is processed to completion. -/
theorem process_pulls_error_isolation_bug :
    process_pulls false [tFail, tOk] st0 = .error .attributeError ∧
    process_pulls true [tFail, tOk] st0 =
      .ok ([("r", [("1", newRecord tFail), ("2", tOkDone)])],
        [("r", .start), ("r", .error), ("r", .start), ("r", .success)]) ∧
    (newRecord tFail).completed = false ∧
    tOkDone.completed = true ∧
    tOkDone.success = true := by
  refine ⟨rfl, ?_, rfl, rfl, record_success_single_zero⟩
  show process_pulls true [tFail, tOk] st0 = _
  simp only [process_pulls, processOne, fieldsCommon, handleError, tFail, tOk, st0,
    ledgerSet, lookupKV, setKV, tOkDone, record_success_single_zero]
  rfl

/-! ## Stale staging cleanup in `PullRequest.init` (lines 346-363) -/

/-- Local filesystem operations performed by `PullRequest.init`. -/
inductive FsOp where
  | rmtree (path : String)
  | makedirs (path : String)
deriving DecidableEq

/-- The filesystem part of `PullRequest.init`: given the archived record
for this pull request (`none` embeds the empty dict passed for a new
pull request), the configured staging directory `repodir`, and the set of
existing directories `fs`, perform the stale-stage removal (lines
356-360: the record holds a `stage` key, that path is a directory, and it
differs from the configured one — the records written by `process_pulls`
always carry a string there, so the trailing `is not None` test is
subsumed) and then create the configured directory if missing (lines
362-363). Returns the operations in program order and the resulting
directory set. -/
def init_ops (arch : Option PullRecord) (repodir : String) (fs : List String) :
    List FsOp × List String :=
  let cleaned :=
    match arch with
    | some rec =>
      if fs.contains rec.stage && (repodir != rec.stage) then
        ([FsOp.rmtree rec.stage], fs.erase rec.stage)
      else
        ([], fs)
    | none => ([], fs)
  if cleaned.2.contains repodir then
    cleaned
  else
    (cleaned.1 ++ [FsOp.makedirs repodir], repodir :: cleaned.2)

/-- Claim C9: a pull request whose archived record has `completed=false`
and a recorded staging path different from the configured one is not
skipped by discovery; its stale staging path is removed first (the
`rmtree` is the head of the operation sequence, before any `makedirs`),
and the configured directory then exists for staging. -/
theorem stale_stage_cleanup (rec : PullRecord) (p : Pull) (archRepo : RepoArchive)
    (repodir : String) (fs : List String)
    (hrec : lookupKV p.snumber archRepo = some rec)
    (hcomp : rec.completed = false)
    (hdir : fs.contains rec.stage = true)
    (hne : repodir ≠ rec.stage) :
    newpull archRepo p = true ∧
    (init_ops (some rec) repodir fs).1 =
      FsOp.rmtree rec.stage ::
        (if repodir ∈ fs.erase rec.stage then [] else [FsOp.makedirs repodir]) ∧
    repodir ∈ (init_ops (some rec) repodir fs).2 := by
  have hb : (repodir != rec.stage) = true := by
    simp [bne_iff_ne, hne]
  refine ⟨?_, ?_, ?_⟩
  · simp only [newpull, hrec, hcomp, Bool.not_false]
  · simp only [init_ops, hdir, hb, Bool.and_self, if_true]
    by_cases hc : repodir ∈ fs.erase rec.stage
    · simp [hc]
    · simp [hc]
  · simp only [init_ops, hdir, hb, Bool.and_self, if_true]
    by_cases hc : repodir ∈ fs.erase rec.stage
    · simp [hc]
    · simp [hc]

def wStaleRec : PullRecord :=
  { number := 7, stage := "/path/a", start := some 0, finished := none,
    completed := false, success := false }

theorem stale_stage_cleanup_witness :
    lookupKV (Pull.snumber ⟨7⟩) [("7", wStaleRec)] = some wStaleRec ∧
    wStaleRec.completed = false ∧
    ["/path/a"].contains wStaleRec.stage = true ∧
    "/path/b" ≠ wStaleRec.stage ∧
    (newpull [("7", wStaleRec)] ⟨7⟩ = true ∧
     (init_ops (some wStaleRec) "/path/b" ["/path/a"]).1 =
       FsOp.rmtree wStaleRec.stage ::
         (if "/path/b" ∈ ["/path/a"].erase wStaleRec.stage then []
          else [FsOp.makedirs "/path/b"]) ∧
     "/path/b" ∈ (init_ops (some wStaleRec) "/path/b" ["/path/a"]).2) :=
  ⟨rfl, rfl, rfl, by decide,
    stale_stage_cleanup wStaleRec ⟨7⟩ [("7", wStaleRec)] "/path/b" ["/path/a"]
      rfl rfl rfl (by decide)⟩
